import Mathlib

/-!
Shallow embedding of the go-payments ledger service
(`internal/storage/storage.go`, `internal/storage/errors.go`,
`internal/models`, `internal/api`).

The database state is modelled explicitly: the `wallets` table as a list of
wallet rows, the `transactions` table as an append-only list of records with
a SERIAL id counter, and the SQL timestamp source as a fixed `now` field.
Monetary values (Postgres `DECIMAL(20,8)` columns; the SQL engine performs the
`balance = balance - $1` arithmetic exactly) are fixed-point decimals with 8
fractional digits, modelled as integers counting units of `10^-8`.
Storage-level failures (a query, update, insert, begin or commit that errors
out at the driver level) are modelled by a `Faults` oracle saying which of the
operations in `SendMoney`, if reached, fails.  A transaction's writes become
visible only on a successful commit.  The `transactions` table that `Init`
creates carries `from_address`/`to_address` foreign keys into
`wallets(address)` and `CHECK (from_address <> to_address)`, so any record
insert deterministically fails whenever a referenced wallet is missing or the
two addresses coincide; the best-effort failure log
(`Storage.logTransaction`, which runs on `s.db` outside the `tx` after
rollback and swallows its own error) therefore writes nothing in those cases,
and the in-transaction success insert errors out when `from = to`.
-/

namespace GoPayments

/-- `models.TransactionStatus` from `internal/models`. -/
inductive TransactionStatus where
  | success
  | failedInsufficientFunds
  | failedRecipientNotFound
  | failedSenderNotFound
  | unknownError
deriving DecidableEq, Repr

/-- `models.Wallet`: one row of the `wallets` table. -/
structure Wallet where
  address : String
  balance : Int
deriving DecidableEq, Repr

/-- `models.Transaction`: one row of the `transactions` table. -/
structure Transaction where
  id : Nat
  fromAddr : String
  toAddr : String
  amount : Int
  timestamp : Nat
  status : TransactionStatus
deriving DecidableEq, Repr

/-- The database state seen by `storage.Storage`. -/
structure DB where
  wallets : List Wallet
  transactions : List Transaction
  nextId : Nat
  now : Nat
deriving DecidableEq, Repr

/-- `SELECT balance FROM wallets WHERE address = $1` (first matching row). -/
def lookupBalance (db : DB) (addr : String) : Option Int :=
  (db.wallets.find? (fun w => w.address = addr)).map Wallet.balance

/-- `SELECT 1 FROM wallets WHERE address = $1` scanned into an existence flag. -/
def walletExists (db : DB) (addr : String) : Bool :=
  db.wallets.any (fun w => w.address = addr)

/-- `UPDATE wallets SET balance = balance + $1 WHERE address = $2`. -/
def updateBalance (db : DB) (addr : String) (delta : Int) : DB :=
  { db with wallets :=
      db.wallets.map (fun w =>
        if w.address = addr then { w with balance := w.balance + delta } else w) }

/-- `INSERT INTO transactions (from_address, to_address, amount, timestamp,
status) VALUES (...)`: the SERIAL id counter assigns the id. -/
def appendRecord (db : DB) (f t : String) (amount : Int)
    (st : TransactionStatus) : DB :=
  { db with
      transactions :=
        db.transactions ++ [⟨db.nextId, f, t, amount, db.now, st⟩],
      nextId := db.nextId + 1 }

/-- Whether an `INSERT` into the `transactions` table satisfies the
constraints `Init` declares on it (storage.go lines 88-97): the
`from_address` and `to_address` foreign keys into `wallets(address)` and
`CHECK (from_address <> to_address)`. -/
def recordInsertOk (db : DB) (f t : String) : Bool :=
  walletExists db f && walletExists db t && decide (f ≠ t)

/-- `Storage.logTransaction`: best-effort failure log written on `s.db`,
outside the rolled-back `tx`.  The insert errors out whenever it violates
the FK/CHECK constraints of the `transactions` table; the Go code swallows
that error (storage.go lines 194-196), so nothing is written then. -/
def logTransaction (db : DB) (f t : String) (amount : Int)
    (st : TransactionStatus) : DB :=
  if recordInsertOk db f t then appendRecord db f t amount st else db

/-- `storage.TxErrCode` from `internal/storage/errors.go`. -/
inductive TxErrCode where
  | unknown
  | senderNotFound
  | recipientNotFound
  | insufficientFunds
  | internalError
deriving DecidableEq, Repr

/-- The Go error value returned by `SendMoney`: either the
`fmt.Errorf`-wrapped raw error of a failed `BeginTx`, a
`*storage.TransactionError` with its code, or the raw driver error returned
by `tx.Commit()`. -/
inductive SendError where
  | beginFailed
  | transaction (code : TxErrCode)
  | commitFailed
deriving DecidableEq, Repr

/-- Which storage operations inside `SendMoney`, if reached, fail with an
unexpected (non-`ErrNoRows`) driver error. -/
structure Faults where
  beginTxFails : Bool
  senderQueryFails : Bool
  recipientQueryFails : Bool
  debitFails : Bool
  creditFails : Bool
  insertFails : Bool
  commitFails : Bool
deriving DecidableEq, Repr

def noFaults : Faults :=
  { beginTxFails := false, senderQueryFails := false,
    recipientQueryFails := false, debitFails := false, creditFails := false,
    insertFails := false, commitFails := false }

/-- `Storage.SendMoney` from `internal/storage/storage.go` (lines 210-273).
Returns the Go error (`Except.error`) or success, together with the database
state as committed: writes made through `tx` are visible only when the final
`tx.Commit()` succeeds, while `Storage.logTransaction` calls are immediate.
The in-transaction success insert (`logTransactionInTx`) references two
wallets that were just validated to exist, so of its constraints only
`CHECK (from_address <> to_address)` can fail: with `f = t` it errors out
and the call returns `CodeInternalError` after rollback. -/
def SendMoney (fl : Faults) (db : DB) (f t : String) (amount : Int) :
    Except SendError Unit × DB :=
  if fl.beginTxFails then
    (.error .beginFailed, logTransaction db f t amount .unknownError)
  else if fl.senderQueryFails then
    (.error (.transaction .internalError),
      logTransaction db f t amount .unknownError)
  else
    match lookupBalance db f with
    | none =>
        (.error (.transaction .senderNotFound),
          logTransaction db f t amount .failedSenderNotFound)
    | some senderBalance =>
        if senderBalance < amount then
          (.error (.transaction .insufficientFunds),
            logTransaction db f t amount .failedInsufficientFunds)
        else if fl.recipientQueryFails then
          (.error (.transaction .internalError),
            logTransaction db f t amount .unknownError)
        else if walletExists db t then
          if fl.debitFails then
            (.error (.transaction .internalError),
              logTransaction db f t amount .unknownError)
          else if fl.creditFails then
            (.error (.transaction .internalError),
              logTransaction db f t amount .unknownError)
          else if fl.insertFails then
            (.error (.transaction .internalError), db)
          else if f = t then
            (.error (.transaction .internalError), db)
          else if fl.commitFails then
            (.error .commitFailed, db)
          else
            (.ok (),
              appendRecord (updateBalance (updateBalance db f (-amount)) t amount)
                f t amount .success)
        else
          (.error (.transaction .recipientNotFound),
            logTransaction db f t amount .failedRecipientNotFound)

/-- A list sorted by `timestamp` descending (the order produced by
`ORDER BY timestamp DESC`). -/
def tsSorted (l : List Transaction) : Prop :=
  l.Pairwise (fun a b => b.timestamp ≤ a.timestamp)

/-- `Storage.GetLastTransactions` (lines 166-187): relational semantics of
`SELECT ... FROM transactions ORDER BY timestamp DESC LIMIT $1`.  SQL fixes
only the `timestamp`-descending order; rows with equal timestamps may come
back in any order, so the result is the `n`-prefix of some
timestamp-descending permutation of the table. -/
def GetLastTransactions (db : DB) (n : Nat) (out : List Transaction) : Prop :=
  ∃ perm, db.transactions.Perm perm ∧ tsSorted perm ∧ out = perm.take n

/-- The ordering the spec claims for `ListRecentTransactions`: timestamp
descending with ties broken by id descending. -/
def specOrdered (l : List Transaction) : Prop :=
  l.Pairwise (fun a b =>
    b.timestamp < a.timestamp ∨ (b.timestamp = a.timestamp ∧ b.id < a.id))

/-- `INSERT INTO wallets (address, balance) VALUES ($1, $2)`: fails on a
primary-key conflict with the `address` column. -/
def insertWallet (db : DB) (addr : String) (bal : Int) : Except Unit DB :=
  if walletExists db addr then .error ()
  else .ok { db with wallets := db.wallets ++ [⟨addr, bal⟩] }

/-- The seeding loop of `Storage.Init` (lines 109-124): inserts one wallet
with balance `100.0` for each generated address, stopping at the first
failure. -/
def seedWallets (db : DB) : List String → Except Unit DB
  | [] => .ok db
  | a :: rest =>
      match insertWallet db a 100 with
      | .error e => .error e
      | .ok db2 => seedWallets db2 rest

/-- `Storage.Init` (lines 77-126).  Table creation is a no-op on the model
state; `addrs` is the sequence of hex addresses produced by the
`crypto/rand` source, one per loop iteration (the Go loop draws exactly 10).
If `SELECT COUNT(*) FROM wallets` returns 0 the ten wallets are seeded,
otherwise nothing is written. -/
def Init (db : DB) (addrs : List String) : Except Unit DB :=
  if db.wallets.length = 0 then seedWallets db addrs else .ok db

/-- Sum of every wallet's balance. -/
def sumBalances (db : DB) : Int :=
  (db.wallets.map Wallet.balance).sum

/-- The record status consistent with a `SendMoney` outcome. -/
def statusFor (r : Except SendError Unit) : TransactionStatus :=
  match r with
  | .ok _ => .success
  | .error .beginFailed => .unknownError
  | .error (.transaction .senderNotFound) => .failedSenderNotFound
  | .error (.transaction .recipientNotFound) => .failedRecipientNotFound
  | .error (.transaction .insufficientFunds) => .failedInsufficientFunds
  | .error (.transaction .internalError) => .unknownError
  | .error (.transaction .unknown) => .unknownError
  | .error .commitFailed => .unknownError

/-- The call gets past every validation step and every earlier fault, so the
next operations attempted are the success-record insert and the commit. -/
def reachesFinalWrites (fl : Faults) (db : DB) (f : String) (t : String)
    (amount : Int) : Bool :=
  !fl.beginTxFails && !fl.senderQueryFails &&
  (match lookupBalance db f with
   | none => false
   | some b => !decide (b < amount)) &&
  !fl.recipientQueryFails && walletExists db t &&
  !fl.debitFails && !fl.creditFails

/-! ### Helper lemmas -/

theorem wallets_logTransaction (db : DB) (f t : String) (a : Int)
    (st : TransactionStatus) :
    (logTransaction db f t a st).wallets = db.wallets := by
  unfold logTransaction
  split <;> rfl

theorem transactions_logTransaction (db : DB) (f t : String) (a : Int)
    (st : TransactionStatus) :
    (logTransaction db f t a st).transactions =
      if recordInsertOk db f t then
        db.transactions ++ [⟨db.nextId, f, t, a, db.now, st⟩]
      else db.transactions := by
  unfold logTransaction
  split <;> rfl

theorem transactions_logTransaction_extend (db : DB) (f t : String) (a : Int)
    (st : TransactionStatus) :
    ∃ new, (logTransaction db f t a st).transactions =
      db.transactions ++ new := by
  unfold logTransaction
  split
  · exact ⟨_, rfl⟩
  · exact ⟨[], (List.append_nil _).symm⟩

theorem find?_map_update_ne (ws : List Wallet) (x addr : String) (d : Int)
    (h : addr ≠ x) :
    (ws.map (fun w =>
        if w.address = x then { w with balance := w.balance + d } else w)).find?
      (fun w => w.address = addr) = ws.find? (fun w => w.address = addr) := by
  induction ws with
  | nil => rfl
  | cons w ws ih =>
      by_cases hx : w.address = x
      · have haddr : ¬ (w.address = addr) := fun hc => h (hc ▸ hx)
        simp [List.find?, hx, haddr, ih, Ne.symm h]
      · by_cases haddr : w.address = addr
        · simp [List.find?, hx, haddr, h]
        · simp [List.find?, hx, haddr, ih]

theorem lookupBalance_updateBalance_ne (db : DB) (x addr : String) (d : Int)
    (h : addr ≠ x) :
    lookupBalance (updateBalance db x d) addr = lookupBalance db addr := by
  unfold lookupBalance updateBalance
  rw [find?_map_update_ne db.wallets x addr d h]

theorem find?_map_update_self (ws : List Wallet) (x : String) (d : Int) :
    (ws.map (fun w =>
        if w.address = x then { w with balance := w.balance + d } else w)).find?
      (fun w => w.address = x) =
    (ws.find? (fun w => w.address = x)).map
      (fun w => if w.address = x then { w with balance := w.balance + d } else w) := by
  induction ws with
  | nil => rfl
  | cons w ws ih =>
      by_cases hx : w.address = x
      · simp [List.find?, hx]
      · simp [List.find?, hx, ih]

theorem lookupBalance_updateBalance_self (db : DB) (x : String) (d : Int) :
    lookupBalance (updateBalance db x d) x =
      (lookupBalance db x).map (fun b => b + d) := by
  unfold lookupBalance updateBalance
  rw [find?_map_update_self db.wallets x d]
  rcases hfind : db.wallets.find? (fun w => w.address = x) with _ | w
  · simp [hfind]
  · have hw : w.address = x := by
      have := List.find?_some hfind
      simpa using this
    simp [hfind, hw]

theorem map_address_updateBalance (db : DB) (x : String) (d : Int) :
    (updateBalance db x d).wallets.map Wallet.address =
      db.wallets.map Wallet.address := by
  unfold updateBalance
  induction db.wallets with
  | nil => rfl
  | cons w ws ih =>
      by_cases hw : w.address = x <;> simp_all

theorem lookupBalance_isSome_iff (db : DB) (addr : String) :
    (∃ b, lookupBalance db addr = some b) ↔ walletExists db addr = true := by
  unfold lookupBalance walletExists
  induction db.wallets with
  | nil => simp
  | cons w ws ih =>
      by_cases hw : w.address = addr
      · simp [List.find?, hw]
      · simpa [List.find?, hw] using ih

theorem walletExists_false_of_lookupBalance_none (db : DB) (addr : String)
    (h : lookupBalance db addr = none) : walletExists db addr = false := by
  rcases hex : walletExists db addr with _ | _
  · rfl
  · obtain ⟨b, hb⟩ := (lookupBalance_isSome_iff db addr).mpr hex
    rw [h] at hb
    cases hb

/-- Everything the success path of `SendMoney` entails: no fault fired, the
sender was found with sufficient balance, the recipient exists, and the
committed state is the two balance updates plus the success record. -/
theorem sendMoney_ok_char (fl : Faults) (db : DB) (f t : String) (a : Int)
    (h : (SendMoney fl db f t a).1 = .ok ()) :
    ∃ bf, lookupBalance db f = some bf ∧ ¬ bf < a ∧ walletExists db t = true ∧
      f ≠ t ∧
      SendMoney fl db f t a =
        (.ok (), appendRecord (updateBalance (updateBalance db f (-a)) t a)
          f t a .success) := by
  by_cases h1 : fl.beginTxFails = true
  · simp [SendMoney, h1] at h
  rw [Bool.not_eq_true] at h1
  by_cases h2 : fl.senderQueryFails = true
  · simp [SendMoney, h1, h2] at h
  rw [Bool.not_eq_true] at h2
  rcases hf : lookupBalance db f with _ | bf
  · simp [SendMoney, h1, h2, hf] at h
  by_cases hlt : bf < a
  · simp [SendMoney, h1, h2, hf, hlt] at h
  by_cases h3 : fl.recipientQueryFails = true
  · simp [SendMoney, h1, h2, hf, hlt, h3] at h
  rw [Bool.not_eq_true] at h3
  cases hex : walletExists db t with
  | false => simp [SendMoney, h1, h2, hf, hlt, h3, hex] at h
  | true =>
      by_cases h4 : fl.debitFails = true
      · simp [SendMoney, h1, h2, hf, hlt, h3, hex, h4] at h
      rw [Bool.not_eq_true] at h4
      by_cases h5 : fl.creditFails = true
      · simp [SendMoney, h1, h2, hf, hlt, h3, hex, h4, h5] at h
      rw [Bool.not_eq_true] at h5
      by_cases h6 : fl.insertFails = true
      · simp [SendMoney, h1, h2, hf, hlt, h3, hex, h4, h5, h6] at h
      rw [Bool.not_eq_true] at h6
      by_cases hft : f = t
      · subst hft
        simp [SendMoney, h1, h2, hf, hlt, h3, hex, h4, h5, h6] at h
      by_cases h7 : fl.commitFails = true
      · simp [SendMoney, h1, h2, hf, hlt, h3, hex, h4, h5, h6, hft, h7] at h
      rw [Bool.not_eq_true] at h7
      refine ⟨bf, rfl, hlt, rfl, hft, ?_⟩
      simp [SendMoney, h1, h2, hf, hlt, h3, hex, h4, h5, h6, hft, h7]

/-- On every path of `SendMoney` that does not end in `Except.ok`, the
committed wallet table is exactly the input one. -/
theorem sendMoney_wallets_or_ok (fl : Faults) (db : DB) (f t : String)
    (a : Int) :
    (SendMoney fl db f t a).2.wallets = db.wallets ∨
      (SendMoney fl db f t a).1 = .ok () := by
  unfold SendMoney
  repeat' split
  all_goals simp [wallets_logTransaction]

theorem lookupBalance_appendRecord (db : DB) (f t : String) (a : Int)
    (st : TransactionStatus) (addr : String) :
    lookupBalance (appendRecord db f t a st) addr = lookupBalance db addr := rfl

/-- A concrete two-wallet database used to instantiate the theorems. -/
def sampleDB : DB :=
  { wallets := [⟨"a", 100⟩, ⟨"b", 50⟩], transactions := [], nextId := 1,
    now := 7 }

/-! ### Claims -/

/-- C1: every `SendMoney(from, to, amount)` call that returns success (under
the documented caller precondition `from ≠ to`) leaves the sender with its
prior balance minus `amount`, the recipient with its prior balance plus
`amount`, and appends exactly one transaction record with status
`success`. -/
theorem sendMoney_success_moves_funds (fl : Faults) (db : DB) (f t : String)
    (a : Int) (hft : f ≠ t) (h : (SendMoney fl db f t a).1 = .ok ()) :
    ∃ bf bt, lookupBalance db f = some bf ∧ lookupBalance db t = some bt ∧
      lookupBalance (SendMoney fl db f t a).2 f = some (bf - a) ∧
      lookupBalance (SendMoney fl db f t a).2 t = some (bt + a) ∧
      (SendMoney fl db f t a).2.transactions =
        db.transactions ++ [⟨db.nextId, f, t, a, db.now, .success⟩] := by
  obtain ⟨bf, hbf, hlt, hex, _, heq⟩ := sendMoney_ok_char fl db f t a h
  obtain ⟨bt, hbt⟩ := (lookupBalance_isSome_iff db t).2 hex
  refine ⟨bf, bt, hbf, hbt, ?_, ?_, ?_⟩
  · rw [heq, lookupBalance_appendRecord,
      lookupBalance_updateBalance_ne _ t f a hft,
      lookupBalance_updateBalance_self, hbf]
    simp [sub_eq_add_neg]
  · rw [heq, lookupBalance_appendRecord, lookupBalance_updateBalance_self,
      lookupBalance_updateBalance_ne _ f t (-a) (Ne.symm hft), hbt]
    rfl
  · rw [heq]
    simp [appendRecord, updateBalance]

/-- Witness for C1 at a concrete transfer `a → b` of 40 on `sampleDB`. -/
theorem sendMoney_success_moves_funds_witness :
    ∃ bf bt, lookupBalance sampleDB "a" = some bf ∧
      lookupBalance sampleDB "b" = some bt ∧
      lookupBalance (SendMoney noFaults sampleDB "a" "b" 40).2 "a" =
        some (bf - 40) ∧
      lookupBalance (SendMoney noFaults sampleDB "a" "b" 40).2 "b" =
        some (bt + 40) ∧
      (SendMoney noFaults sampleDB "a" "b" 40).2.transactions =
        sampleDB.transactions ++
          [⟨sampleDB.nextId, "a", "b", 40, sampleDB.now, .success⟩] :=
  sendMoney_success_moves_funds noFaults sampleDB "a" "b" 40 (by decide) rfl

/-- C2: whenever `SendMoney` returns any error — validation failure, a
storage fault at any step, a failed success-record insert, or a failed
commit — the committed wallet table (hence every balance) is exactly the one
before the attempt. -/
theorem sendMoney_error_preserves_wallets (fl : Faults) (db : DB)
    (f t : String) (a : Int) (e : SendError)
    (h : (SendMoney fl db f t a).1 = .error e) :
    (SendMoney fl db f t a).2.wallets = db.wallets := by
  rcases sendMoney_wallets_or_ok fl db f t a with hw | hk
  · exact hw
  · rw [hk] at h
    cases h

/-- Witness for C2 at a concrete insufficient-funds attempt on `sampleDB`. -/
theorem sendMoney_error_preserves_wallets_witness :
    (SendMoney noFaults sampleDB "a" "b" 500).2.wallets = sampleDB.wallets :=
  sendMoney_error_preserves_wallets noFaults sampleDB "a" "b" 500
    (.transaction .insufficientFunds) rfl

/-- Counterexample to C3: the not-found failure records are never durably
written.  A transfer from the nonexistent sender `"ghost"` returns
`SenderNotFound`, and one to the nonexistent recipient `"ghost"` returns
`RecipientNotFound`, but in both cases the `failed_*_not_found` insert
violates the `from_address`/`to_address` foreign key into
`wallets(address)`, is swallowed by `logTransaction`, and the transaction
table is left unchanged — no matching record is logged. -/
theorem sendMoney_not_found_logs_nothing :
    (SendMoney noFaults sampleDB "ghost" "b" 5).1 =
      .error (.transaction .senderNotFound) ∧
    (SendMoney noFaults sampleDB "ghost" "b" 5).2.transactions =
      sampleDB.transactions ∧
    (SendMoney noFaults sampleDB "a" "ghost" 5).1 =
      .error (.transaction .recipientNotFound) ∧
    (SendMoney noFaults sampleDB "a" "ghost" 5).2.transactions =
      sampleDB.transactions :=
  ⟨rfl, rfl, rfl, rfl⟩

/-- C3 as amended: in a fault-free unit of work `SendMoney` validates in the
fixed order sender-existence, then funds, then recipient-existence, each
failure returning the matching `TransactionError` code before any balance is
mutated; the matching failure record is only attempted best-effort and lands
only when its insert satisfies the transactions-table constraints — the
insufficient-funds record is written exactly when both wallets exist and
`from ≠ to`, while the sender-not-found and recipient-not-found records are
never written (their FK-violating insert is swallowed, the state is
unchanged). -/
theorem sendMoney_validation_order (db : DB) (f t : String) (a : Int) :
    (lookupBalance db f = none →
      SendMoney noFaults db f t a =
        (.error (.transaction .senderNotFound), db)) ∧
    (∀ b, lookupBalance db f = some b → b < a →
      SendMoney noFaults db f t a =
        (.error (.transaction .insufficientFunds),
          if recordInsertOk db f t = true then
            appendRecord db f t a .failedInsufficientFunds
          else db)) ∧
    (∀ b, lookupBalance db f = some b → ¬ b < a → walletExists db t = false →
      SendMoney noFaults db f t a =
        (.error (.transaction .recipientNotFound), db)) := by
  refine ⟨fun h1 => ?_, fun b h1 h2 => ?_, fun b h1 h2 h3 => ?_⟩
  · have hwf := walletExists_false_of_lookupBalance_none db f h1
    simp [SendMoney, noFaults, h1, logTransaction, recordInsertOk, hwf]
  · simp [SendMoney, noFaults, h1, h2, logTransaction]
  · simp [SendMoney, noFaults, h1, h2, h3, logTransaction, recordInsertOk]

/-- Witness for C3 (amended): the three failure scenarios of the spec on
`sampleDB` (`"ghost"` sender, insufficient funds, `"ghost"` recipient). -/
theorem sendMoney_validation_order_witness :
    SendMoney noFaults sampleDB "ghost" "b" 5 =
      (.error (.transaction .senderNotFound), sampleDB) ∧
    SendMoney noFaults sampleDB "a" "b" 500 =
      (.error (.transaction .insufficientFunds),
        if recordInsertOk sampleDB "a" "b" = true then
          appendRecord sampleDB "a" "b" 500 .failedInsufficientFunds
        else sampleDB) ∧
    SendMoney noFaults sampleDB "a" "ghost" 5 =
      (.error (.transaction .recipientNotFound), sampleDB) :=
  ⟨(sendMoney_validation_order sampleDB "ghost" "b" 5).1 (by decide),
   (sendMoney_validation_order sampleDB "a" "b" 500).2.1 100 (by decide)
     (by decide),
   (sendMoney_validation_order sampleDB "a" "ghost" 5).2.2 100 (by decide)
     (by decide) (by decide)⟩

theorem walletExists_iff_mem (db : DB) (addr : String) :
    walletExists db addr = true ↔ addr ∈ db.wallets.map Wallet.address := by
  unfold walletExists
  rw [List.any_eq_true]
  constructor
  · rintro ⟨w, hw, hp⟩
    exact List.mem_map.mpr ⟨w, hw, of_decide_eq_true hp⟩
  · intro hm
    obtain ⟨w, hw, ha⟩ := List.mem_map.mp hm
    exact ⟨w, hw, decide_eq_true ha⟩

theorem walletExists_updateBalance (db : DB) (x addr : String) (d : Int) :
    walletExists (updateBalance db x d) addr = walletExists db addr := by
  have hiff : walletExists (updateBalance db x d) addr = true ↔
      walletExists db addr = true := by
    rw [walletExists_iff_mem, map_address_updateBalance, walletExists_iff_mem]
  rcases h : walletExists db addr with _ | _ <;>
    rcases h2 : walletExists (updateBalance db x d) addr with _ | _ <;>
      try rfl
  · exact absurd (hiff.mp h2) (by simp [h])
  · exact absurd (hiff.mpr h) (by simp [h2])

theorem sum_balances_update_not_mem (l : List Wallet) (x : String) (d : Int)
    (h : ∀ w ∈ l, w.address ≠ x) :
    ((l.map (fun w =>
        if w.address = x then { w with balance := w.balance + d } else w)).map
      Wallet.balance).sum = (l.map Wallet.balance).sum := by
  induction l with
  | nil => rfl
  | cons w l ih =>
      have hw := h w (List.mem_cons_self w l)
      simp only [List.map_cons, List.sum_cons, if_neg hw]
      rw [ih (fun w' hw' => h w' (List.mem_cons_of_mem w hw'))]

theorem sum_balances_update_mem (l : List Wallet) (x : String) (d : Int)
    (hnd : (l.map Wallet.address).Nodup) (hmem : ∃ w ∈ l, w.address = x) :
    ((l.map (fun w =>
        if w.address = x then { w with balance := w.balance + d } else w)).map
      Wallet.balance).sum = (l.map Wallet.balance).sum + d := by
  induction l with
  | nil => simp at hmem
  | cons w l ih =>
      simp only [List.map_cons, List.nodup_cons] at hnd
      by_cases hx : w.address = x
      · have hrest : ∀ w' ∈ l, w'.address ≠ x := by
          intro w' hw' hc
          exact hnd.1 (hx ▸ hc ▸ List.mem_map_of_mem Wallet.address hw')
        simp only [List.map_cons, List.sum_cons, if_pos hx]
        rw [sum_balances_update_not_mem l x d hrest]
        ring
      · obtain ⟨w', hw', hw'x⟩ := hmem
        rcases List.mem_cons.mp hw' with rfl | hw'l
        · exact absurd hw'x hx
        simp only [List.map_cons, List.sum_cons, if_neg hx]
        rw [ih hnd.2 ⟨w', hw'l, hw'x⟩]
        ring

theorem sumBalances_updateBalance (db : DB) (x : String) (d : Int)
    (hnd : (db.wallets.map Wallet.address).Nodup)
    (hex : walletExists db x = true) :
    sumBalances (updateBalance db x d) = sumBalances db + d := by
  unfold sumBalances updateBalance
  apply sum_balances_update_mem db.wallets x d hnd
  unfold walletExists at hex
  simpa [List.any_eq_true] using hex

/-- C5: the sum of all wallet balances is unchanged by any `SendMoney`
attempt, successful or failed, for any inputs and any storage faults
(assuming the `address` primary key holds, i.e. addresses are distinct). -/
theorem sendMoney_conserves_total (fl : Faults) (db : DB) (f t : String)
    (a : Int) (hnd : (db.wallets.map Wallet.address).Nodup) :
    sumBalances (SendMoney fl db f t a).2 = sumBalances db := by
  rcases sendMoney_wallets_or_ok fl db f t a with hw | hk
  · unfold sumBalances
    rw [hw]
  · obtain ⟨bf, hbf, _, hex, _, heq⟩ := sendMoney_ok_char fl db f t a hk
    have hexf : walletExists db f = true := by
      rw [walletExists_iff_mem]
      rw [← walletExists_iff_mem, ← lookupBalance_isSome_iff]
      exact ⟨bf, hbf⟩
    have hnd2 : ((updateBalance db f (-a)).wallets.map Wallet.address).Nodup := by
      rw [map_address_updateBalance]; exact hnd
    have hext : walletExists (updateBalance db f (-a)) t = true := by
      rw [walletExists_updateBalance]; exact hex
    rw [heq]
    show sumBalances (appendRecord _ f t a .success) = sumBalances db
    have happ : ∀ d2 : DB, sumBalances (appendRecord d2 f t a .success) =
        sumBalances d2 := fun _ => rfl
    rw [happ, sumBalances_updateBalance _ t a hnd2 hext,
      sumBalances_updateBalance db f (-a) hnd hexf]
    ring

/-- Witness for C5 at a successful concrete transfer. -/
theorem sendMoney_conserves_total_witness :
    sumBalances (SendMoney noFaults sampleDB "a" "b" 40).2 =
      sumBalances sampleDB :=
  sendMoney_conserves_total noFaults sampleDB "a" "b" 40 (by decide)

theorem find?_of_mem_nodup (l : List Wallet) (w : Wallet)
    (hnd : (l.map Wallet.address).Nodup) (hw : w ∈ l) :
    l.find? (fun x => x.address = w.address) = some w := by
  induction l with
  | nil => cases hw
  | cons x l ih =>
      simp only [List.map_cons, List.nodup_cons] at hnd
      rcases List.mem_cons.mp hw with rfl | hwl
      · simp [List.find?]
      · have hxw : ¬ x.address = w.address := by
          intro hc
          exact hnd.1 (hc ▸ List.mem_map_of_mem Wallet.address hwl)
        simp only [List.find?, decide_eq_true_eq, hxw, if_neg]
        simpa [hxw] using ih hnd.2 hwl

theorem lookupBalance_of_mem_nodup (db : DB) (w : Wallet)
    (hnd : (db.wallets.map Wallet.address).Nodup) (hw : w ∈ db.wallets) :
    lookupBalance db w.address = some w.balance := by
  unfold lookupBalance
  rw [find?_of_mem_nodup db.wallets w hnd hw]
  rfl

/-- A database on which a negative transfer amount drives a balance below
zero: wallet `b` holds 3 and a leaked `amount = -5` credits it with `-5`. -/
def negDB : DB :=
  { wallets := [⟨"a", 0⟩, ⟨"b", 3⟩], transactions := [], nextId := 1,
    now := 0 }

/-- Counterexample to C6: with every balance non-negative, a call whose
`amount = -5` leaked past the boundary checks returns success and commits
wallet `"b"` at balance `-2 < 0` — the engine neither preserves
non-negativity nor fails cleanly on `amount ≤ 0`. -/
theorem sendMoney_negative_amount_commits_negative :
    (SendMoney noFaults negDB "a" "b" (-5)).1 = .ok () ∧
    lookupBalance (SendMoney noFaults negDB "a" "b" (-5)).2 "b" = some (-2) ∧
    ((-2 : Int) < 0) := by
  refine ⟨rfl, by decide, by norm_num⟩

/-- C6 as amended: starting from a state with distinct addresses and all
balances non-negative, a `SendMoney` call with `amount ≥ 0` (any `from`,
`to`, including `from = to`, and any storage faults) never commits a state
with a negative balance; a negative leaked `amount` can, as the
counterexample shows. -/
theorem sendMoney_preserves_nonneg (fl : Faults) (db : DB) (f t : String)
    (a : Int) (hnd : (db.wallets.map Wallet.address).Nodup) (ha : 0 ≤ a)
    (hb : ∀ w ∈ db.wallets, 0 ≤ w.balance) :
    ∀ w ∈ (SendMoney fl db f t a).2.wallets, 0 ≤ w.balance := by
  rcases sendMoney_wallets_or_ok fl db f t a with hw | hk
  · rw [hw]; exact hb
  · obtain ⟨bf, hbf, hlt, _, _, heq⟩ := sendMoney_ok_char fl db f t a hk
    rw [heq]
    intro w hw
    simp only [appendRecord, updateBalance, List.mem_map] at hw
    obtain ⟨w1, ⟨w0, hw0, hw1⟩, hww⟩ := hw
    subst hw1
    subst hww
    have hba : a ≤ bf := not_lt.mp hlt
    have h0 : 0 ≤ w0.balance := hb w0 hw0
    by_cases hf0 : w0.address = f
    · have hbal : w0.balance = bf := by
        have := lookupBalance_of_mem_nodup db w0 hnd hw0
        rw [hf0, hbf] at this
        exact Option.some_injective _ this.symm
      by_cases ht0 : ({ w0 with balance := w0.balance + -a } : Wallet).address = t
      · simp only [if_pos hf0, if_pos ht0]
        simp [hbal]
        exact hbal ▸ h0
      · simp only [if_pos hf0, if_neg ht0]
        simp only [hbal]
        linarith
    · by_cases ht0 : w0.address = t
      · simp only [if_neg hf0, if_pos ht0]
        show 0 ≤ w0.balance + a
        linarith
      · simp only [if_neg hf0, if_neg ht0]
        exact h0

/-- Witness for C6 (amended): on `sampleDB` after a successful transfer of
40 the recipient row `⟨"b", 90⟩` is in the committed table and the theorem
yields its non-negativity. -/
theorem sendMoney_preserves_nonneg_witness :
    (0 : Int) ≤ (Wallet.mk "b" 90).balance :=
  sendMoney_preserves_nonneg noFaults sampleDB "a" "b" 40 (by decide)
    (by norm_num) (by decide) ⟨"b", 90⟩
    (by
      have h : (SendMoney noFaults sampleDB "a" "b" 40).2.wallets =
          [⟨"a", 60⟩, ⟨"b", 90⟩] := by decide
      rw [h]
      exact List.mem_cons_of_mem _ (List.mem_cons_self _ _))

/-- On every path, `SendMoney` only ever appends to the transaction log:
the prior records survive unmodified as a prefix. -/
theorem sendMoney_transactions_extend (fl : Faults) (db : DB) (f t : String)
    (a : Int) :
    ∃ new, (SendMoney fl db f t a).2.transactions = db.transactions ++ new := by
  unfold SendMoney
  repeat' split
  all_goals first
    | exact transactions_logTransaction_extend _ _ _ _ _
    | exact ⟨[], (List.append_nil _).symm⟩
    | exact ⟨_, rfl⟩

/-- C10: a `SendMoney(from, to, amount)` call leaves the balance of every
wallet other than `from` and `to` unchanged, and never modifies or deletes a
pre-existing transaction record — the log only grows at the end. -/
theorem sendMoney_frame (fl : Faults) (db : DB) (f t : String) (a : Int)
    (addr : String) (h1 : addr ≠ f) (h2 : addr ≠ t) :
    lookupBalance (SendMoney fl db f t a).2 addr = lookupBalance db addr ∧
    ∃ new, (SendMoney fl db f t a).2.transactions = db.transactions ++ new := by
  refine ⟨?_, sendMoney_transactions_extend fl db f t a⟩
  rcases sendMoney_wallets_or_ok fl db f t a with hw | hk
  · unfold lookupBalance
    rw [hw]
  · obtain ⟨bf, _, _, _, _, heq⟩ := sendMoney_ok_char fl db f t a hk
    rw [heq, lookupBalance_appendRecord, lookupBalance_updateBalance_ne _ _ _ _ h2,
      lookupBalance_updateBalance_ne _ _ _ _ h1]

/-- A three-wallet database: `"c"` is a bystander of transfers `a → b`. -/
def sampleDB3 : DB :=
  { wallets := [⟨"a", 100⟩, ⟨"b", 50⟩, ⟨"c", 7⟩], transactions := [],
    nextId := 1, now := 7 }

/-- Witness for C10: wallet `"c"` is untouched by a transfer `a → b`. -/
theorem sendMoney_frame_witness :
    lookupBalance (SendMoney noFaults sampleDB3 "a" "b" 40).2 "c" =
      lookupBalance sampleDB3 "c" ∧
    ∃ new, (SendMoney noFaults sampleDB3 "a" "b" 40).2.transactions =
      sampleDB3.transactions ++ new :=
  sendMoney_frame noFaults sampleDB3 "a" "b" 40 "c" (by decide) (by decide)

/-- Counterexample to C4: two calls that produce zero durable records
instead of exactly one.  When the commit fails, the whole unit of work —
including the success record inserted through `tx` — is rolled back and
`SendMoney` writes no compensating failure record; and a transfer from the
nonexistent sender `"ghost"` returns `SenderNotFound` while its
`failed_sender_not_found` insert violates the `from_address` foreign key and
is swallowed, so the log is unchanged there too. -/
theorem sendMoney_commit_failure_drops_record :
    (SendMoney { noFaults with commitFails := true } sampleDB "a" "b" 40).1 =
      .error .commitFailed ∧
    (SendMoney { noFaults with commitFails := true }
        sampleDB "a" "b" 40).2.transactions = sampleDB.transactions ∧
    (SendMoney noFaults sampleDB "ghost" "b" 5).1 =
      .error (.transaction .senderNotFound) ∧
    (SendMoney noFaults sampleDB "ghost" "b" 5).2.transactions =
      sampleDB.transactions :=
  ⟨rfl, rfl, rfl, rfl⟩

/-- C4 as amended: every `SendMoney` call appends at most one durable
record.  A call that stops before the final writes (any validation failure
or storage fault up to the credit update) appends its best-effort failure
record — with status consistent with the returned outcome — exactly when
that record satisfies the transactions-table constraints, i.e. both wallets
exist and `from ≠ to`; in particular a transfer from a nonexistent sender
appends nothing.  A call that reaches the final writes appends exactly the
one success record on a committed run, and nothing when the success-record
insert fails, when `from = to` (its `CHECK` constraint fails the insert), or
when the commit fails. -/
theorem sendMoney_logs_exactly_one_record (fl : Faults) (db : DB)
    (f t : String) (a : Int) :
    (reachesFinalWrites fl db f t a = true ∧
        (fl.insertFails = true ∨ f = t ∨ fl.commitFails = true) →
      (SendMoney fl db f t a).2.transactions = db.transactions) ∧
    (¬ (reachesFinalWrites fl db f t a = true ∧
        (fl.insertFails = true ∨ f = t ∨ fl.commitFails = true)) →
      (recordInsertOk db f t = true →
        ∃ r, (SendMoney fl db f t a).2.transactions =
            db.transactions ++ [r] ∧
          r.status = statusFor (SendMoney fl db f t a).1) ∧
      (recordInsertOk db f t = false →
        (SendMoney fl db f t a).2.transactions = db.transactions)) := by
  by_cases h1 : fl.beginTxFails = true
  · constructor
    · intro hc
      simp [reachesFinalWrites, h1] at hc
    · intro _
      constructor
      · intro hio
        refine ⟨⟨db.nextId, f, t, a, db.now, .unknownError⟩, ?_, ?_⟩ <;>
          simp [SendMoney, h1, logTransaction, hio, appendRecord, statusFor]
      · intro hio
        simp [SendMoney, h1, logTransaction, hio]
  rw [Bool.not_eq_true] at h1
  by_cases h2 : fl.senderQueryFails = true
  · constructor
    · intro hc
      simp [reachesFinalWrites, h1, h2] at hc
    · intro _
      constructor
      · intro hio
        refine ⟨⟨db.nextId, f, t, a, db.now, .unknownError⟩, ?_, ?_⟩ <;>
          simp [SendMoney, h1, h2, logTransaction, hio, appendRecord,
            statusFor]
      · intro hio
        simp [SendMoney, h1, h2, logTransaction, hio]
  rw [Bool.not_eq_true] at h2
  rcases hf : lookupBalance db f with _ | bf
  · constructor
    · intro hc
      simp [reachesFinalWrites, h1, h2, hf] at hc
    · intro _
      constructor
      · intro hio
        refine ⟨⟨db.nextId, f, t, a, db.now, .failedSenderNotFound⟩,
          ?_, ?_⟩ <;>
          simp [SendMoney, h1, h2, hf, logTransaction, hio, appendRecord,
            statusFor]
      · intro hio
        simp [SendMoney, h1, h2, hf, logTransaction, hio]
  by_cases hlt : bf < a
  · constructor
    · intro hc
      simp [reachesFinalWrites, h1, h2, hf, hlt] at hc
    · intro _
      constructor
      · intro hio
        refine ⟨⟨db.nextId, f, t, a, db.now, .failedInsufficientFunds⟩,
          ?_, ?_⟩ <;>
          simp [SendMoney, h1, h2, hf, hlt, logTransaction, hio,
            appendRecord, statusFor]
      · intro hio
        simp [SendMoney, h1, h2, hf, hlt, logTransaction, hio]
  by_cases h3 : fl.recipientQueryFails = true
  · constructor
    · intro hc
      simp [reachesFinalWrites, h1, h2, hf, hlt, h3] at hc
    · intro _
      constructor
      · intro hio
        refine ⟨⟨db.nextId, f, t, a, db.now, .unknownError⟩, ?_, ?_⟩ <;>
          simp [SendMoney, h1, h2, hf, hlt, h3, logTransaction, hio,
            appendRecord, statusFor]
      · intro hio
        simp [SendMoney, h1, h2, hf, hlt, h3, logTransaction, hio]
  rw [Bool.not_eq_true] at h3
  cases hex : walletExists db t with
  | false =>
      constructor
      · intro hc
        simp [reachesFinalWrites, h1, h2, hf, hlt, h3, hex] at hc
      · intro _
        constructor
        · intro hio
          refine ⟨⟨db.nextId, f, t, a, db.now, .failedRecipientNotFound⟩,
            ?_, ?_⟩ <;>
            simp [SendMoney, h1, h2, hf, hlt, h3, hex, logTransaction, hio,
              appendRecord, statusFor]
        · intro hio
          simp [SendMoney, h1, h2, hf, hlt, h3, hex, logTransaction, hio]
  | true =>
      by_cases h4 : fl.debitFails = true
      · constructor
        · intro hc
          simp [reachesFinalWrites, h1, h2, hf, hlt, h3, hex, h4] at hc
        · intro _
          constructor
          · intro hio
            refine ⟨⟨db.nextId, f, t, a, db.now, .unknownError⟩, ?_, ?_⟩ <;>
              simp [SendMoney, h1, h2, hf, hlt, h3, hex, h4, logTransaction,
                hio, appendRecord, statusFor]
          · intro hio
            simp [SendMoney, h1, h2, hf, hlt, h3, hex, h4, logTransaction,
              hio]
      rw [Bool.not_eq_true] at h4
      by_cases h5 : fl.creditFails = true
      · constructor
        · intro hc
          simp [reachesFinalWrites, h1, h2, hf, hlt, h3, hex, h4, h5] at hc
        · intro _
          constructor
          · intro hio
            refine ⟨⟨db.nextId, f, t, a, db.now, .unknownError⟩, ?_, ?_⟩ <;>
              simp [SendMoney, h1, h2, hf, hlt, h3, hex, h4, h5,
                logTransaction, hio, appendRecord, statusFor]
          · intro hio
            simp [SendMoney, h1, h2, hf, hlt, h3, hex, h4, h5,
              logTransaction, hio]
      rw [Bool.not_eq_true] at h5
      have hreach : reachesFinalWrites fl db f t a = true := by
        simp [reachesFinalWrites, h1, h2, hf, hlt, h3, hex, h4, h5]
      by_cases h6 : fl.insertFails = true
      · constructor
        · intro _
          simp [SendMoney, h1, h2, hf, hlt, h3, hex, h4, h5, h6]
        · intro hn
          exact absurd ⟨hreach, Or.inl h6⟩ hn
      rw [Bool.not_eq_true] at h6
      by_cases hft : f = t
      · constructor
        · intro _
          subst hft
          simp [SendMoney, h1, h2, hf, hlt, h3, hex, h4, h5, h6]
        · intro hn
          exact absurd ⟨hreach, Or.inr (Or.inl hft)⟩ hn
      by_cases h7 : fl.commitFails = true
      · constructor
        · intro _
          simp [SendMoney, h1, h2, hf, hlt, h3, hex, h4, h5, h6, hft, h7]
        · intro hn
          exact absurd ⟨hreach, Or.inr (Or.inr h7)⟩ hn
      rw [Bool.not_eq_true] at h7
      have hexf : walletExists db f = true :=
        (lookupBalance_isSome_iff db f).mp ⟨bf, hf⟩
      constructor
      · intro hc
        rcases hc.2 with h | h | h
        · exact absurd h (by simp [h6])
        · exact absurd h hft
        · exact absurd h (by simp [h7])
      · intro _
        constructor
        · intro _
          refine ⟨⟨db.nextId, f, t, a, db.now, .success⟩, ?_, ?_⟩ <;>
            simp [SendMoney, h1, h2, hf, hlt, h3, hex, h4, h5, h6, hft, h7,
              appendRecord, updateBalance, statusFor]
        · intro hio
          exfalso
          simp [recordInsertOk, hexf, hex, hft] at hio

/-- Witness for C4 (amended): an insufficient-funds attempt between two
existing wallets appends one record whose status matches the returned
error. -/
theorem sendMoney_logs_exactly_one_record_witness :
    ∃ r, (SendMoney noFaults sampleDB "a" "b" 500).2.transactions =
        sampleDB.transactions ++ [r] ∧
      r.status = statusFor (SendMoney noFaults sampleDB "a" "b" 500).1 :=
  ((sendMoney_logs_exactly_one_record noFaults sampleDB "a" "b" 500).2
    (by decide)).1 (by decide)

/-- Counterexample to C7: on commit failure `SendMoney` returns the raw
driver error of `tx.Commit()` — not a `TransactionError` of kind
`InternalError` — and records no `unknown_error` outcome at all. -/
theorem sendMoney_commit_failure_leaks_raw_error :
    (SendMoney { noFaults with commitFails := true } sampleDB "a" "b" 40).1 =
      .error .commitFailed ∧
    SendError.commitFailed ≠ SendError.transaction TxErrCode.internalError ∧
    (SendMoney { noFaults with commitFails := true }
        sampleDB "a" "b" 40).2.transactions = sampleDB.transactions :=
  ⟨rfl, by decide, rfl⟩

/-- C7 as amended: an unexpected storage error during the sender-balance
read, the recipient check, or either balance update returns
`TransactionError{InternalError}` and attempts the best-effort
`unknown_error` log outside the aborted unit of work (`logTransaction`,
which lands only when both wallets exist and `from ≠ to`, its insert being
dropped otherwise by the FK/CHECK constraints); but a `BeginTx` failure
attempts that same log while returning a plain wrapped error instead of a
`TransactionError`, a failed success-record insert returns `InternalError`
with no failure record, and a failed commit (reachable when `from ≠ to`)
returns the raw commit error with no record. -/
theorem sendMoney_storage_error_policy (fl : Faults) (db : DB) (f t : String)
    (a : Int) :
    (fl.beginTxFails = true →
      SendMoney fl db f t a =
        (.error .beginFailed, logTransaction db f t a .unknownError)) ∧
    (fl.beginTxFails = false → fl.senderQueryFails = true →
      SendMoney fl db f t a =
        (.error (.transaction .internalError),
          logTransaction db f t a .unknownError)) ∧
    (∀ b, fl.beginTxFails = false → fl.senderQueryFails = false →
      lookupBalance db f = some b → ¬ b < a →
      fl.recipientQueryFails = true →
      SendMoney fl db f t a =
        (.error (.transaction .internalError),
          logTransaction db f t a .unknownError)) ∧
    (∀ b, fl.beginTxFails = false → fl.senderQueryFails = false →
      lookupBalance db f = some b → ¬ b < a →
      fl.recipientQueryFails = false → walletExists db t = true →
      fl.debitFails = true →
      SendMoney fl db f t a =
        (.error (.transaction .internalError),
          logTransaction db f t a .unknownError)) ∧
    (∀ b, fl.beginTxFails = false → fl.senderQueryFails = false →
      lookupBalance db f = some b → ¬ b < a →
      fl.recipientQueryFails = false → walletExists db t = true →
      fl.debitFails = false → fl.creditFails = true →
      SendMoney fl db f t a =
        (.error (.transaction .internalError),
          logTransaction db f t a .unknownError)) ∧
    (∀ b, fl.beginTxFails = false → fl.senderQueryFails = false →
      lookupBalance db f = some b → ¬ b < a →
      fl.recipientQueryFails = false → walletExists db t = true →
      fl.debitFails = false → fl.creditFails = false →
      fl.insertFails = true →
      SendMoney fl db f t a = (.error (.transaction .internalError), db)) ∧
    (∀ b, fl.beginTxFails = false → fl.senderQueryFails = false →
      lookupBalance db f = some b → ¬ b < a →
      fl.recipientQueryFails = false → walletExists db t = true →
      fl.debitFails = false → fl.creditFails = false →
      fl.insertFails = false → f ≠ t → fl.commitFails = true →
      SendMoney fl db f t a = (.error .commitFailed, db)) := by
  refine ⟨fun h1 => ?_, fun h1 h2 => ?_, fun b h1 h2 hf hlt h3 => ?_,
    fun b h1 h2 hf hlt h3 hex h4 => ?_,
    fun b h1 h2 hf hlt h3 hex h4 h5 => ?_,
    fun b h1 h2 hf hlt h3 hex h4 h5 h6 => ?_,
    fun b h1 h2 hf hlt h3 hex h4 h5 h6 hft h7 => ?_⟩
  · simp [SendMoney, h1]
  · simp [SendMoney, h1, h2]
  · simp [SendMoney, h1, h2, hf, hlt, h3]
  · simp [SendMoney, h1, h2, hf, hlt, h3, hex, h4]
  · simp [SendMoney, h1, h2, hf, hlt, h3, hex, h4, h5]
  · simp [SendMoney, h1, h2, hf, hlt, h3, hex, h4, h5, h6]
  · simp [SendMoney, h1, h2, hf, hlt, h3, hex, h4, h5, h6, hft, h7]

/-- Witness for C7 (amended): a debit-update fault on `sampleDB` yields
`InternalError` plus a logged `unknown_error` record. -/
theorem sendMoney_storage_error_policy_witness :
    SendMoney { noFaults with debitFails := true } sampleDB "a" "b" 40 =
      (.error (.transaction .internalError),
        logTransaction sampleDB "a" "b" 40 .unknownError) :=
  (sendMoney_storage_error_policy { noFaults with debitFails := true }
      sampleDB "a" "b" 40).2.2.2.1 100 rfl rfl (by decide) (by decide) rfl
    (by decide) rfl

/-- A transaction table with two records sharing one timestamp: ids 1 and 2,
both at time 5. -/
def tieDB : DB :=
  { wallets := [],
    transactions :=
      [⟨1, "a", "b", 1, 5, .success⟩, ⟨2, "a", "b", 1, 5, .success⟩],
    nextId := 3, now := 9 }

/-- Counterexample to C8: the query orders only by `timestamp DESC`, so on
equal timestamps it may return the records in ascending-id order — a valid
result of `GetLastTransactions` that violates the claimed id-descending
tie-break. -/
theorem getLastTransactions_tie_not_id_ordered :
    GetLastTransactions tieDB 2 tieDB.transactions ∧
    ¬ specOrdered tieDB.transactions := by
  constructor
  · refine ⟨tieDB.transactions, List.Perm.refl _, ?_, rfl⟩
    simp [tsSorted, tieDB, List.pairwise_cons]
  · intro h
    rw [specOrdered] at h
    rw [show tieDB.transactions =
      [⟨1, "a", "b", 1, 5, .success⟩, ⟨2, "a", "b", 1, 5, .success⟩] from rfl,
      List.pairwise_cons] at h
    have h2 := h.1 _ (List.mem_cons_self _ _)
    simp at h2

/-- C8 as amended: every valid result of `GetLastTransactions(n)` consists
of `min n count` records sorted by `timestamp` descending, and no omitted
record has a larger timestamp than any returned one — but the relative order
of records with equal timestamps is unspecified (the query has no id
tie-break). -/
theorem getLastTransactions_most_recent (db : DB) (n : Nat)
    (out : List Transaction) (h : GetLastTransactions db n out) :
    tsSorted out ∧ out.length = min n db.transactions.length ∧
    ∃ rest, (out ++ rest).Perm db.transactions ∧
      ∀ x ∈ out, ∀ y ∈ rest, y.timestamp ≤ x.timestamp := by
  obtain ⟨perm, hperm, hsort, hout⟩ := h
  subst hout
  refine ⟨hsort.sublist (List.take_sublist n perm), ?_, perm.drop n, ?_, ?_⟩
  · rw [List.length_take, hperm.length_eq]
  · rw [List.take_append_drop]
    exact hperm.symm
  · have h2 : List.Pairwise (fun a b => b.timestamp ≤ a.timestamp)
        (List.take n perm ++ List.drop n perm) := by
      rw [List.take_append_drop]
      exact hsort
    rw [List.pairwise_append] at h2
    exact fun x hx y hy => h2.2.2 x hx y hy

/-- Witness for C8 (amended) at the one-row query over `tieDB`, where the
sorted permutation puts id 2 first. -/
theorem getLastTransactions_most_recent_witness :
    tsSorted [(⟨2, "a", "b", 1, 5, .success⟩ : Transaction)] ∧
    ([(⟨2, "a", "b", 1, 5, .success⟩ : Transaction)]).length =
      min 1 tieDB.transactions.length ∧
    ∃ rest,
      (([(⟨2, "a", "b", 1, 5, .success⟩ : Transaction)] ++ rest)).Perm
        tieDB.transactions ∧
      ∀ x ∈ [(⟨2, "a", "b", 1, 5, .success⟩ : Transaction)], ∀ y ∈ rest,
        y.timestamp ≤ x.timestamp :=
  getLastTransactions_most_recent tieDB 1 _
    ⟨[⟨2, "a", "b", 1, 5, .success⟩, ⟨1, "a", "b", 1, 5, .success⟩],
      List.Perm.swap _ _ _,
      by simp [tsSorted, List.pairwise_cons], rfl⟩

/-- A successful run of the seeding loop appends one wallet of balance 100
per generated address, touches nothing else, and — because each `INSERT`
fails on an `address` primary-key conflict — can only have consumed
pairwise-distinct addresses that were all fresh. -/
theorem seedWallets_ok : ∀ (as : List String) (db db2 : DB),
    seedWallets db as = .ok db2 →
    db2.wallets = db.wallets ++ as.map (fun s => ⟨s, 100⟩) ∧
    db2.transactions = db.transactions ∧
    as.Nodup ∧
    ∀ s ∈ as, walletExists db s = false := by
  intro as
  induction as with
  | nil =>
      intro db db2 h
      unfold seedWallets at h
      injection h with h
      subst h
      simp
  | cons s rest ih =>
      intro db db2 h
      unfold seedWallets at h
      by_cases hex : walletExists db s = true
      · simp [insertWallet, hex] at h
      rw [Bool.not_eq_true] at hex
      have h' : seedWallets { db with wallets := db.wallets ++ [⟨s, 100⟩] }
          rest = .ok db2 := by
        simpa [insertWallet, hex] using h
      obtain ⟨hw, ht, hnd, hall⟩ :=
        ih { db with wallets := db.wallets ++ [⟨s, 100⟩] } db2 h'
      have hmem : walletExists { db with wallets := db.wallets ++ [⟨s, 100⟩] }
          s = true := by
        rw [walletExists_iff_mem]
        simp
      refine ⟨?_, ht, ?_, ?_⟩
      · rw [hw]
        simp
      · refine List.nodup_cons.mpr ⟨?_, hnd⟩
        intro hs
        rw [hall s hs] at hmem
        cases hmem
      · intro s' hs'
        rcases List.mem_cons.mp hs' with rfl | hs'r
        · exact hex
        · have h2 := hall s' hs'r
          rcases h3 : walletExists db s' with _ | _
          · rfl
          · exfalso
            have h4 : walletExists { db with wallets := db.wallets ++ [⟨s, 100⟩] }
                s' = true := by
              rw [walletExists_iff_mem] at h3 ⊢
              simp only [List.map_append, List.mem_append]
              exact Or.inl h3
            rw [h2] at h4
            cases h4

/-- C9: table setup aside, `Init` seeds wallets exactly when the wallet
count is zero: a successful run over the ten generated addresses leaves ten
wallets, each with the fixed balance 100, all with distinct addresses, and
no other change; if any wallet already exists, the state is untouched. -/
theorem init_seeds_ten_wallets (db db2 : DB) (addrs : List String) :
    (db.wallets = [] → addrs.length = 10 → Init db addrs = .ok db2 →
      db2.wallets.length = 10 ∧ (∀ w ∈ db2.wallets, w.balance = 100) ∧
      (db2.wallets.map Wallet.address).Nodup ∧
      db2.transactions = db.transactions) ∧
    (db.wallets ≠ [] → Init db addrs = .ok db2 → db2 = db) := by
  constructor
  · intro hempty hlen hok
    rw [Init, if_pos (by rw [hempty]; rfl)] at hok
    obtain ⟨hw, ht, hnd, _⟩ := seedWallets_ok addrs db db2 hok
    rw [hempty] at hw
    simp only [List.nil_append] at hw
    refine ⟨?_, ?_, ?_, ht⟩
    · rw [hw, List.length_map, hlen]
    · intro w hw2
      rw [hw] at hw2
      obtain ⟨s, _, rfl⟩ := List.mem_map.mp hw2
      rfl
    · rw [hw, List.map_map]
      have hco : (Wallet.address ∘ fun s => ({ address := s, balance := 100 } : Wallet)) =
          fun s => s := rfl
      rw [hco]
      simpa using hnd
  · intro hne hok
    rw [Init, if_neg (by simpa [List.length_eq_zero] using hne)] at hok
    injection hok with h
    exact h.symm

/-- The ten generated addresses and the empty and seeded states used to
instantiate the `Init` theorem. -/
def tenAddrs : List String :=
  ["a0", "a1", "a2", "a3", "a4", "a5", "a6", "a7", "a8", "a9"]

def emptyDB : DB :=
  { wallets := [], transactions := [], nextId := 1, now := 0 }

def seededDB : DB :=
  { wallets := tenAddrs.map (fun s => ⟨s, 100⟩), transactions := [],
    nextId := 1, now := 0 }

/-- Witness for C9: a concrete run of `Init` over ten fresh addresses. -/
theorem init_seeds_ten_wallets_witness :
    seededDB.wallets.length = 10 ∧
    (∀ w ∈ seededDB.wallets, w.balance = 100) ∧
    (seededDB.wallets.map Wallet.address).Nodup ∧
    seededDB.transactions = emptyDB.transactions :=
  (init_seeds_ten_wallets emptyDB seededDB tenAddrs).1 rfl rfl rfl

end GoPayments
